import Mathlib

/-!
# Verification of the listings booking/review core

Shallow embedding of `listings/models.py` and `listings/serializers.py`:
bookings and reviews are rows in explicit list-valued stores, dates are
day numbers (`Nat`), money is `ℚ` (Django `DecimalField` arithmetic on
these inputs is exact), and every fallible operation returns `Except`.
The Django ORM query sets are embedded as list filters over the stores.
-/

/-- `Booking.STATUS_CHOICES` in `listings/models.py`. -/
inductive BookingStatus
  | pending
  | confirmed
  | canceled
deriving DecidableEq, Repr

/-- `status__in=['pending', 'confirmed']`, the status filter used by
`Listing.is_available`. -/
def BookingStatus.isActive : BookingStatus → Bool
  | .pending => true
  | .confirmed => true
  | .canceled => false

/-- A row of the `bookings` table (`Booking` model in `listings/models.py`).
Foreign keys (`property`, `user`) are embedded as the referenced row ids. -/
structure Booking where
  id : Nat
  property : Nat
  user : Nat
  start_date : Nat
  end_date : Nat
  total_price : ℚ
  status : BookingStatus
deriving DecidableEq, Repr

/-- A row of the `reviews` table (`Review` model in `listings/models.py`). -/
structure Review where
  id : Nat
  property : Nat
  user : Nat
  rating : Nat
  comment : String
deriving DecidableEq, Repr

/-- The error outcomes of the embedded operations.  `ValidationError`s are
identified by the field/message they carry in the source; `attrError` stands
for the `AttributeError`/`FieldError` raised when `Booking.clean` dereferences
the nonexistent `booking_id` attribute on its update path. -/
inductive Err
  | invalidRange
  | pastDate
  | propertyUnavailable
  | attrError
  | notFound
  | ratingOutOfRange
  | blankComment
  | noEligibleStay
  | duplicateReview
deriving DecidableEq, Repr

/-- `Listing.is_available` (models.py:104-110): the property is available for
`[start_date, end_date]` iff no booking of this property with status in
{pending, confirmed} satisfies `start_date__lte=end_date AND
end_date__gte=start_date` (note: inclusive comparisons on both ends). -/
def Listing.is_available (bookings : List Booking) (property : Nat)
    (start_date end_date : Nat) : Bool :=
  !(bookings.any fun b =>
    b.property == property && b.status.isActive
      && decide (b.start_date ≤ end_date) && decide (b.end_date ≥ start_date))

/-- `Booking.calculate_total_price` (models.py:240-243):
`nights = (end_date - start_date).days; nights * property.pricepernight`.
`rate` is the referenced listing's `pricepernight`. -/
def Booking.calculate_total_price (rate : ℚ) (start_date end_date : Nat) : ℚ :=
  (((end_date : ℤ) - (start_date : ℤ) : ℤ) : ℚ) * rate

/-- `Booking.clean` (models.py:208-233), validating booking `b` against the
current store `db` with today's date `today`; `adding` is `self._state.adding`.
On the update path, when the property is not available, the source evaluates
`self._state.adding or not Booking.objects.filter(booking_id=self.booking_id,
...)`; `booking_id` is not a field of `Booking` (the primary key is `id`), so
that expression raises rather than excluding the current booking — embedded as
`Err.attrError`. -/
def Booking.clean (db : List Booking) (b : Booking) (adding : Bool)
    (today : Nat) : Except Err Unit :=
  if b.end_date ≤ b.start_date then .error .invalidRange
  else if b.start_date < today then .error .pastDate
  else if !Listing.is_available db b.property b.start_date b.end_date then
    if adding then .error .propertyUnavailable
    else .error .attrError
  else .ok ()

/-- `Booking.save` (models.py:235-238): `full_clean` (which calls `clean`)
followed by the SQL insert (`adding = true`) or row update. -/
def Booking.save (db : List Booking) (b : Booking) (adding : Bool)
    (today : Nat) : Except Err (List Booking) :=
  match Booking.clean db b adding today with
  | .error e => .error e
  | .ok _ =>
      if adding then .ok (db ++ [b])
      else .ok (db.map fun x => if x.id == b.id then b else x)

/-- `BookingSerializer.validate` (serializers.py:128-152): range validity,
past-date check, then the availability check against the property supplied
with the request (run on create and on update alike, with no exclusion of the
booking being updated). -/
def BookingSerializer.validate (db : List Booking) (property : Nat)
    (start_date end_date today : Nat) : Except Err Unit :=
  if end_date ≤ start_date then .error .invalidRange
  else if start_date < today then .error .pastDate
  else if !Listing.is_available db property start_date end_date then
    .error .propertyUnavailable
  else .ok ()

/-- The fresh primary key taken by a newly inserted row; stands for the
`uuid.uuid4` default of the non-editable `id` field (clients cannot supply
an id; a fresh one never collides with an existing row). -/
def freshId (db : List Booking) : Nat :=
  (db.foldr (fun b m => max b.id m) 0) + 1

/-- The model instance built by `BookingSerializer.create`
(serializers.py:154-165): fields from the validated data, a fresh id, the
computed `total_price`, and the model's default status `'pending'` when the
request supplied none. -/
def newBookingRow (rates : Nat → ℚ) (db : List Booking)
    (property user start_date end_date : Nat)
    (status? : Option BookingStatus) : Booking :=
  { id := freshId db, property := property, user := user,
    start_date := start_date, end_date := end_date,
    total_price := Booking.calculate_total_price (rates property)
      start_date end_date,
    status := status?.getD .pending }

/-- The admission flow for `POST /bookings`: `BookingSerializer.validate`
(serializers.py:128-152) then `BookingSerializer.create`
(serializers.py:154-165), which builds the model instance, sets
`total_price = calculate_total_price()` and calls `Booking.save` with
`adding = true`.  `rates` maps a listing id to its `pricepernight`;
`status?` is the optional requested status (model default `'pending'`). -/
def createBooking (rates : Nat → ℚ) (db : List Booking)
    (property user start_date end_date : Nat) (status? : Option BookingStatus)
    (today : Nat) : Except Err (List Booking × Booking) :=
  match BookingSerializer.validate db property start_date end_date today with
  | .error e => .error e
  | .ok _ =>
      match Booking.save db
          (newBookingRow rates db property user start_date end_date status?)
          true today with
      | .error e => .error e
      | .ok db' =>
          .ok (db', newBookingRow rates db property user start_date end_date
            status?)

/-- The instance as mutated by `BookingSerializer.update`
(serializers.py:167-182): `property` and `user` were popped from the
validated data, so only the date fields and the status are set, and
`total_price` is recomputed from the instance's own (unchanged) property
rate because the date fields are present in the data. -/
def updatedBookingRow (rates : Nat → ℚ) (inst : Booking)
    (start_date end_date : Nat) (status? : Option BookingStatus) : Booking :=
  { inst with
    start_date := start_date, end_date := end_date,
    status := status?.getD inst.status,
    total_price := Booking.calculate_total_price (rates inst.property)
      start_date end_date }

/-- The update flow for `PUT /bookings/<id>`: look up the instance,
`BookingSerializer.validate` on the submitted data (the submitted `property`
is what the availability check in `validate` runs against), then
`BookingSerializer.update` (serializers.py:167-182): `property` and `user`
are popped from the validated data, the date/status fields are set on the
instance, `total_price` is recomputed since the date fields are present, and
`instance.save()` runs `Booking.clean` with `adding = false`.  `status?` is
`none` when the request omits `status` (it is not required). -/
def updateBooking (rates : Nat → ℚ) (db : List Booking) (instId : Nat)
    (suppliedProperty suppliedUser start_date end_date : Nat)
    (status? : Option BookingStatus) (today : Nat) :
    Except Err (List Booking × Booking) :=
  match db.find? (fun b => b.id == instId) with
  | none => .error .notFound
  | some inst =>
      match BookingSerializer.validate db suppliedProperty start_date end_date
          today with
      | .error e => .error e
      | .ok _ =>
          match Booking.save db
              (updatedBookingRow rates inst start_date end_date status?)
              false today with
          | .error e => .error e
          | .ok db' =>
              .ok (db', updatedBookingRow rates inst start_date end_date
                status?)

/-- A core booking operation as issued through the `BookingViewSet` CRUD
surface; each carries the date at which it runs. -/
inductive Op
  | create (property user start_date end_date : Nat)
      (status? : Option BookingStatus) (today : Nat)
  | update (instId suppliedProperty suppliedUser start_date end_date : Nat)
      (status? : Option BookingStatus) (today : Nat)
  | delete (instId : Nat)

/-- Effect of one operation on the booking store: a failed operation raises
before any SQL write, so it leaves the store unchanged. -/
def applyOp (rates : Nat → ℚ) (db : List Booking) : Op → List Booking
  | .create property user sd ed status? today =>
      match createBooking rates db property user sd ed status? today with
      | .ok (db', _) => db'
      | .error _ => db
  | .update instId sp su sd ed status? today =>
      match updateBooking rates db instId sp su sd ed status? today with
      | .ok (db', _) => db'
      | .error _ => db
  | .delete instId => db.filter fun b => b.id != instId

/-- The booking store reached from the empty store by a sequence of core
operations. -/
def runOps (rates : Nat → ℚ) (ops : List Op) : List Booking :=
  ops.foldl (applyOp rates) []

/-- The completed-stay filter shared by `Review.clean` (models.py:331-346)
and `ReviewSerializer.validate` (serializers.py:231-247):
`Booking.objects.filter(user=…, property=…, status='confirmed',
end_date__lt=timezone.now().date()).exists()`. -/
def hasCompletedBooking (bookings : List Booking) (user property today : Nat) :
    Bool :=
  bookings.any fun b =>
    b.user == user && b.property == property
      && b.status == .confirmed && decide (b.end_date < today)

/-- `Review.clean` (models.py:331-346): raises unless the reviewer has a
confirmed booking for the property whose end date is strictly before today. -/
def Review.clean (bookings : List Booking) (r : Review) (today : Nat) :
    Except Err Unit :=
  if !hasCompletedBooking bookings r.user r.property today then
    .error .noEligibleStay
  else .ok ()

/-- The model instance built by `ReviewSerializer.create`
(serializers.py:258-264): a fresh id and the validated fields. -/
def newReviewRow (reviews : List Review) (user property rating : Nat)
    (comment : String) : Review :=
  { id := (reviews.foldr (fun x m => max x.id m) 0) + 1,
    property := property, user := user, rating := rating, comment := comment }

/-- The review submission flow for `POST /reviews`: DRF field validation
(`validate_rating`, serializers.py:225-229, and `comment` with
`allow_blank=False`), then `ReviewSerializer.validate`
(serializers.py:231-256): the completed-stay eligibility check, then the
duplicate check over existing `(user, property)` reviews, then
`ReviewSerializer.create` → `Review.save` → `Review.clean` (which re-checks
the same eligibility predicate) and the insert. -/
def submitReview (bookings : List Booking) (reviews : List Review)
    (user property rating : Nat) (comment : String) (today : Nat) :
    Except Err (List Review × Review) :=
  if rating < 1 || 5 < rating then .error .ratingOutOfRange
  else if comment = "" then .error .blankComment
  else if !hasCompletedBooking bookings user property today then
    .error .noEligibleStay
  else if reviews.any (fun r => r.user == user && r.property == property) then
    .error .duplicateReview
  else
    match Review.clean bookings
        (newReviewRow reviews user property rating comment) today with
    | .error e => .error e
    | .ok _ =>
        .ok (reviews ++ [newReviewRow reviews user property rating comment],
          newReviewRow reviews user property rating comment)

/-- The review store after a `submitReview` call: a failed call raises before
the insert and leaves the store unchanged. -/
def submitReviewState (bookings : List Booking) (reviews : List Review)
    (user property rating : Nat) (comment : String) (today : Nat) :
    List Review :=
  match submitReview bookings reviews user property rating comment today with
  | .ok (reviews', _) => reviews'
  | .error _ => reviews

/-- `Listing.get_average_rating` (models.py:93-98): the `Avg` aggregate of
the ratings of this property's reviews when some exist, `None` otherwise. -/
def Listing.get_average_rating (reviews : List Review) (property : Nat) :
    Option ℚ :=
  let rs := reviews.filter fun r => r.property == property
  if rs.isEmpty then none
  else some ((rs.map fun r => (r.rating : ℚ)).sum / rs.length)

/-! ## Interleaving model of concurrent `create_booking` requests

`BookingSerializer.create` runs with Django autocommit: the availability
`SELECT` issued by `validate`/`clean` and the `INSERT` issued by
`Booking.save` are separate statements with no enclosing transaction,
`select_for_update`, or exclusion constraint.  A request is therefore two
atomic steps against the shared store: (1) run all validation checks against
the current store, (2) insert the row.  A schedule is the order in which the
pending requests take their next step. -/

/-- One `create_booking` request: all requests in a race carry their payload. -/
structure Request where
  property : Nat
  user : Nat
  start_date : Nat
  end_date : Nat
  status? : Option BookingStatus
deriving Repr

/-- Progress of one in-flight request. -/
inductive ReqState
  | initial
  | passedChecks
  | failed (e : Err)
  | succeeded
deriving DecidableEq, Repr

/-- Shared store plus the progress of each in-flight request. -/
structure ConcState where
  db : List Booking
  reqs : List ReqState
deriving Repr

/-- All validation run by the create flow (`BookingSerializer.validate` plus
`Booking.clean` on `save`; both read the store, and on a fresh instance they
test the same conditions). -/
def createChecks (db : List Booking) (r : Request) (today : Nat) :
    Except Err Unit :=
  BookingSerializer.validate db r.property r.start_date r.end_date today

/-- Advance request `i` by one step: an initial request runs its checks
against the current store; a request whose checks passed performs its
`INSERT` of the row `BookingSerializer.create` built. -/
def concStep (rates : Nat → ℚ) (requests : List Request) (today : Nat)
    (s : ConcState) (i : Nat) : ConcState :=
  match requests.get? i, s.reqs.get? i with
  | some r, some .initial =>
      match createChecks s.db r today with
      | .ok _ => { s with reqs := s.reqs.set i .passedChecks }
      | .error e => { s with reqs := s.reqs.set i (.failed e) }
  | some r, some .passedChecks =>
      { db := s.db ++ [newBookingRow rates s.db r.property r.user
          r.start_date r.end_date r.status?],
        reqs := s.reqs.set i .succeeded }
  | _, _ => s

/-- Run the race under a given interleaving (list of request indices). -/
def runSchedule (rates : Nat → ℚ) (requests : List Request) (today : Nat)
    (schedule : List Nat) : ConcState :=
  schedule.foldl (concStep rates requests today)
    { db := [], reqs := requests.map fun _ => .initial }

/-- Serial execution of `n` copies of the same request: each `create_booking`
call runs to completion before the next starts.  Returns the outcomes in
order together with the final store. -/
def serialCreates (rates : Nat → ℚ) (r : Request) (today : Nat) :
    List Booking → Nat → List (Except Err Unit) × List Booking
  | db, 0 => ([], db)
  | db, n + 1 =>
      match createBooking rates db r.property r.user r.start_date r.end_date
          r.status? today with
      | .ok (db', _) =>
          let rest := serialCreates rates r today db' n
          (.ok () :: rest.1, rest.2)
      | .error e =>
          let rest := serialCreates rates r today db n
          (.error e :: rest.1, rest.2)

/-- Availability as the half-open overlap rule of the specification would
compute it (strict comparisons on both ends); defined only to be compared
with the source's `Listing.is_available`. -/
def specHalfOpenAvailable (bookings : List Booking) (property : Nat)
    (start_date end_date : Nat) : Bool :=
  !(bookings.any fun b =>
    b.property == property && b.status.isActive
      && decide (b.start_date < end_date) && decide (start_date < b.end_date))

/-! ## Helper lemmas -/

theorem is_available_eq_true_iff (db : List Booking) (p sd ed : Nat) :
    Listing.is_available db p sd ed = true ↔
      ∀ b ∈ db, b.property = p → b.status.isActive = true →
        ¬(b.start_date ≤ ed ∧ sd ≤ b.end_date) := by
  simp only [Listing.is_available, Bool.not_eq_true', List.any_eq_false,
    Bool.and_eq_false_iff, beq_iff_eq, decide_eq_false_iff_not, not_and,
    not_le, ge_iff_le, Bool.not_eq_true]
  refine forall_congr' fun b => imp_congr_right fun hb => ?_
  by_cases hp : b.property = p <;> by_cases hs : b.status.isActive = true <;>
    simp [hp, hs, Bool.eq_false_iff] <;> omega

theorem mem_id_lt_freshId {db : List Booking} {b : Booking} (hb : b ∈ db) :
    b.id < freshId db := by
  induction db with
  | nil => cases hb
  | cons x xs ih =>
      rcases List.mem_cons.mp hb with rfl | hb'
      · simp [freshId]; omega
      · have := ih hb'
        simp only [freshId, List.foldr_cons] at *
        omega

theorem validate_ok {db : List Booking} {p sd ed today : Nat}
    (h : BookingSerializer.validate db p sd ed today = .ok ()) :
    today ≤ sd ∧ sd < ed ∧ Listing.is_available db p sd ed = true := by
  unfold BookingSerializer.validate at h
  split at h
  · cases h
  · split at h
    · cases h
    · split at h
      · cases h
      · refine ⟨by omega, by omega, ?_⟩
        rename_i h3
        simpa using h3

theorem validate_errors {db : List Booking} {p sd ed today : Nat} {e : Err}
    (h : BookingSerializer.validate db p sd ed today = .error e) :
    e = .invalidRange ∨ e = .pastDate ∨ e = .propertyUnavailable := by
  unfold BookingSerializer.validate at h
  split at h
  · cases h; exact Or.inl rfl
  · split at h
    · cases h; exact Or.inr (Or.inl rfl)
    · split at h
      · cases h; exact Or.inr (Or.inr rfl)
      · cases h

theorem clean_ok {db : List Booking} {b : Booking} {adding : Bool}
    {today : Nat} (h : Booking.clean db b adding today = .ok ()) :
    today ≤ b.start_date ∧ b.start_date < b.end_date ∧
      Listing.is_available db b.property b.start_date b.end_date = true := by
  unfold Booking.clean at h
  split at h
  · cases h
  · split at h
    · cases h
    · split at h
      · split at h <;> cases h
      · refine ⟨by omega, by omega, ?_⟩
        rename_i h3
        simpa using h3

theorem save_ok {db db' : List Booking} {b : Booking} {adding : Bool}
    {today : Nat} (h : Booking.save db b adding today = .ok db') :
    (db' = if adding then db ++ [b]
      else db.map fun x => if x.id == b.id then b else x) ∧
    today ≤ b.start_date ∧ b.start_date < b.end_date ∧
      Listing.is_available db b.property b.start_date b.end_date = true := by
  unfold Booking.save at h
  split at h
  · cases h
  · rename_i hc
    obtain ⟨h1, h2, h3⟩ := clean_ok hc
    split at h <;> cases h <;> simp_all

theorem createBooking_ok {rates : Nat → ℚ} {db db' : List Booking}
    {p u sd ed today : Nat} {st? : Option BookingStatus} {b : Booking}
    (h : createBooking rates db p u sd ed st? today = .ok (db', b)) :
    db' = db ++ [b] ∧ b = newBookingRow rates db p u sd ed st? ∧
    today ≤ sd ∧ sd < ed ∧ Listing.is_available db p sd ed = true := by
  unfold createBooking at h
  split at h
  · cases h
  · rename_i u' hv
    split at h
    · cases h
    · rename_i db'' hs
      obtain ⟨rfl, rfl⟩ : db'' = db' ∧ newBookingRow rates db p u sd ed st? = b := by
        cases h; exact ⟨rfl, rfl⟩
      obtain ⟨h1, h2, h3, h4⟩ := save_ok hs
      simp only [if_pos rfl] at h1
      obtain ⟨hv1, hv2, hv3⟩ := validate_ok (by cases u'; exact hv)
      exact ⟨h1, rfl, hv1, hv2, hv3⟩

theorem updateBooking_ok {rates : Nat → ℚ} {db db' : List Booking}
    {instId sp su sd ed today : Nat} {st? : Option BookingStatus}
    {b' : Booking}
    (h : updateBooking rates db instId sp su sd ed st? today = .ok (db', b')) :
    ∃ inst, db.find? (fun x => x.id == instId) = some inst ∧
      b' = updatedBookingRow rates inst sd ed st? ∧
      db' = (db.map fun x => if x.id == b'.id then b' else x) ∧
      today ≤ sd ∧ sd < ed ∧
      Listing.is_available db inst.property sd ed = true := by
  unfold updateBooking at h
  split at h
  · cases h
  · rename_i inst hfind
    split at h
    · cases h
    · rename_i u' hv
      split at h
      · cases h
      · rename_i db'' hs
        obtain ⟨rfl, rfl⟩ :
            db'' = db' ∧ updatedBookingRow rates inst sd ed st? = b' := by
          cases h; exact ⟨rfl, rfl⟩
        obtain ⟨h1, h2, h3, h4⟩ := save_ok hs
        rw [if_neg (by decide)] at h1
        obtain ⟨hv1, hv2, hv3⟩ := validate_ok (by cases u'; exact hv)
        exact ⟨inst, hfind, rfl, h1, hv1, hv2, by simpa [updatedBookingRow] using h4⟩

/-! ## The core safety invariant -/

/-- Two distinct store rows are compatible when, if they are active bookings
of the same property, their half-open date ranges do not overlap. -/
def compatible (a b : Booking) : Prop :=
  a.id ≠ b.id ∧
    (a.property = b.property → a.status.isActive = true →
      b.status.isActive = true →
      ¬(a.start_date < b.end_date ∧ b.start_date < a.end_date))

/-- The store invariant: rows pairwise have distinct ids and non-overlapping
active ranges. -/
def StoreInv (db : List Booking) : Prop := db.Pairwise compatible

theorem StoreInv_insert {db : List Booking} {b : Booking} (hInv : StoreInv db)
    (hid : ∀ a ∈ db, a.id ≠ b.id)
    (havail : Listing.is_available db b.property b.start_date b.end_date
      = true) : StoreInv (db ++ [b]) := by
  rw [StoreInv, List.pairwise_append]
  refine ⟨hInv, List.pairwise_singleton _ _, ?_⟩
  intro a ha c hc
  rw [List.mem_singleton] at hc
  subst c
  refine ⟨hid a ha, fun hp hsa hsc => ?_⟩
  have := (is_available_eq_true_iff db b.property b.start_date
    b.end_date).mp havail a ha hp hsa
  omega

theorem StoreInv_replace {db : List Booking} {b' : Booking} (hInv : StoreInv db)
    (havail : Listing.is_available db b'.property b'.start_date b'.end_date
      = true) :
    StoreInv (db.map fun x => if x.id == b'.id then b' else x) := by
  rw [StoreInv, List.pairwise_map]
  refine hInv.imp_of_mem ?_
  intro a c ha hc hac
  obtain ⟨hid, hcompat⟩ := hac
  have hav := (is_available_eq_true_iff db b'.property b'.start_date
    b'.end_date).mp havail
  have epos : ∀ x : Booking, x.id = b'.id →
      (if (x.id == b'.id) = true then b' else x) = b' :=
    fun x hx => if_pos (by simpa using hx)
  have eneg : ∀ x : Booking, x.id ≠ b'.id →
      (if (x.id == b'.id) = true then b' else x) = x :=
    fun x hx => if_neg (by simpa using hx)
  by_cases h1 : a.id = b'.id <;> by_cases h2 : c.id = b'.id
  · exact absurd (h1.trans h2.symm) hid
  · rw [epos a h1, eneg c h2]
    refine ⟨fun h => h2 h.symm, fun hp hsa hsc => ?_⟩
    have := hav c hc hp.symm hsc
    omega
  · rw [eneg a h1, epos c h2]
    refine ⟨h1, fun hp hsa hsc => ?_⟩
    have := hav a ha hp hsa
    omega
  · rw [eneg a h1, eneg c h2]
    exact ⟨hid, hcompat⟩

theorem StoreInv_applyOp (rates : Nat → ℚ) (db : List Booking) (op : Op)
    (hInv : StoreInv db) : StoreInv (applyOp rates db op) := by
  cases op with
  | create property user sd ed st? today =>
      simp only [applyOp]
      split
      · rename_i db' b h
        obtain ⟨rfl, rfl, _, _, havail⟩ := createBooking_ok h
        refine StoreInv_insert hInv (fun a ha => ?_) (by simpa [newBookingRow])
        have := mem_id_lt_freshId ha
        simp only [newBookingRow]
        omega
      · exact hInv
  | update instId sp su sd ed st? today =>
      simp only [applyOp]
      split
      · rename_i db' b' h
        obtain ⟨inst, hfind, hb', hdb', _, _, havail⟩ := updateBooking_ok h
        rw [hdb']
        refine StoreInv_replace hInv ?_
        simpa [hb', updatedBookingRow] using havail
      · exact hInv
  | delete instId =>
      simp only [applyOp]
      exact (hInv.sublist (List.filter_sublist _))

theorem createBooking_invalidRange {rates : Nat → ℚ} {db : List Booking}
    {p u sd ed today : Nat} {st? : Option BookingStatus} (h : ed ≤ sd) :
    createBooking rates db p u sd ed st? today = .error .invalidRange := by
  simp [createBooking, BookingSerializer.validate, h]

theorem createBooking_pastDate {rates : Nat → ℚ} {db : List Booking}
    {p u sd ed today : Nat} {st? : Option BookingStatus}
    (h1 : sd < ed) (h2 : sd < today) :
    createBooking rates db p u sd ed st? today = .error .pastDate := by
  have c1 : ¬(ed ≤ sd) := by omega
  simp [createBooking, BookingSerializer.validate, c1, h2]

theorem createBooking_blocked {rates : Nat → ℚ} {db : List Booking}
    {p u sd ed today : Nat} {st? : Option BookingStatus}
    (h1 : today ≤ sd) (h2 : sd < ed)
    (h3 : Listing.is_available db p sd ed = false) :
    createBooking rates db p u sd ed st? today =
      .error .propertyUnavailable := by
  have c1 : ¬(ed ≤ sd) := by omega
  have c2 : ¬(sd < today) := by omega
  simp [createBooking, BookingSerializer.validate, c1, c2, h3]

theorem createBooking_eq_ok {rates : Nat → ℚ} {db : List Booking}
    {p u sd ed today : Nat} {st? : Option BookingStatus}
    (h1 : today ≤ sd) (h2 : sd < ed)
    (h3 : Listing.is_available db p sd ed = true) :
    createBooking rates db p u sd ed st? today =
      .ok (db ++ [newBookingRow rates db p u sd ed st?],
        newBookingRow rates db p u sd ed st?) := by
  have c1 : ¬(ed ≤ sd) := by omega
  have c2 : ¬(sd < today) := by omega
  simp [createBooking, BookingSerializer.validate, Booking.save,
    Booking.clean, newBookingRow, c1, c2, h3]

theorem applyOp_create_error {rates : Nat → ℚ} {db : List Booking}
    {p u sd ed today : Nat} {st? : Option BookingStatus} {e : Err}
    (h : createBooking rates db p u sd ed st? today = .error e) :
    applyOp rates db (.create p u sd ed st? today) = db := by
  simp [applyOp, h]

theorem serialCreates_blocked {rates : Nat → ℚ} {r : Request} {today : Nat}
    {db : List Booking} (n : Nat)
    (h1 : today ≤ r.start_date) (h2 : r.start_date < r.end_date)
    (h3 : Listing.is_available db r.property r.start_date r.end_date
      = false) :
    serialCreates rates r today db n =
      (List.replicate n (.error .propertyUnavailable), db) := by
  induction n with
  | zero => rfl
  | succ n ih =>
      rw [serialCreates, createBooking_blocked h1 h2 h3, ih]
      simp [List.replicate_succ]

theorem StoreInv_runOps (rates : Nat → ℚ) (ops : List Op) :
    StoreInv (runOps rates ops) := by
  rw [runOps]
  have h : ∀ db, StoreInv db → StoreInv (ops.foldl (applyOp rates) db) := by
    induction ops with
    | nil => exact fun db h => h
    | cons op rest ih =>
        intro db hdb
        exact ih _ (StoreInv_applyOp rates db op hdb)
  exact h [] (List.Pairwise.nil)

theorem hasCompletedBooking_eq_true_iff (bookings : List Booking)
    (u p today : Nat) :
    hasCompletedBooking bookings u p today = true ↔
      ∃ b ∈ bookings, b.user = u ∧ b.property = p ∧
        b.status = .confirmed ∧ b.end_date < today := by
  simp [hasCompletedBooking, List.any_eq_true, and_assoc]

theorem submitReview_ok {bookings : List Booking} {reviews reviews' :
    List Review} {u p rating : Nat} {comment : String} {today : Nat}
    {r : Review}
    (h : submitReview bookings reviews u p rating comment today
      = .ok (reviews', r)) :
    reviews' = reviews ++ [r] ∧
    r = newReviewRow reviews u p rating comment ∧
    hasCompletedBooking bookings u p today = true ∧
    reviews.any (fun x => x.user == u && x.property == p) = false := by
  unfold submitReview at h
  split at h
  · cases h
  · split at h
    · cases h
    · split at h
      · cases h
      · rename_i hrate hcomment helig
        split at h
        · cases h
        · rename_i hdup
          split at h
          · cases h
          · obtain ⟨rfl, rfl⟩ :
                reviews ++ [newReviewRow reviews u p rating comment] = reviews'
                  ∧ newReviewRow reviews u p rating comment = r := by
              cases h; exact ⟨rfl, rfl⟩
            refine ⟨rfl, rfl, ?_, ?_⟩
            · simpa using helig
            · simpa using hdup

/-! ## Claim theorems -/

/-- C1: Core safety invariant — after any sequence of core booking
operations (creation, update, deletion/cancellation through the serializer
flows) starting from the empty store, every pair of distinct bookings on the
same property whose status is pending or confirmed has non-overlapping
half-open date ranges. -/
theorem c1_core_safety_no_overlap (rates : Nat → ℚ) (ops : List Op) :
    (runOps rates ops).Pairwise (fun a b =>
      a.property = b.property → a.status.isActive = true →
      b.status.isActive = true →
      ¬(a.start_date < b.end_date ∧ b.start_date < a.end_date)) :=
  (StoreInv_runOps rates ops).imp (fun h => h.2)

/-- C2 counterexample: two interleaved `create_booking` requests for the same
property and identical ranges can both pass their availability checks against
the pre-insert store and then both insert, yielding two successes and two
overlapping active bookings — the claimed "exactly one success" fails. -/
theorem c2_counterexample_two_successes :
    (runSchedule (fun _ => 100)
      [⟨1, 1, 10, 12, none⟩, ⟨1, 2, 10, 12, none⟩] 10 [0, 1, 0, 1]).reqs
      = [.succeeded, .succeeded] ∧
    (runSchedule (fun _ => 100)
      [⟨1, 1, 10, 12, none⟩, ⟨1, 2, 10, 12, none⟩] 10 [0, 1, 0, 1]).db
      = [⟨1, 1, 1, 10, 12, 200, .pending⟩,
         ⟨2, 1, 2, 10, 12, 200, .pending⟩] := by
  refine ⟨rfl, ?_⟩
  simp [runSchedule, concStep, createChecks, BookingSerializer.validate,
    Listing.is_available, newBookingRow, freshId,
    Booking.calculate_total_price]
  norm_num

/-- C2 amended: when the N identical requests execute serially (each
`create_booking` call completes before the next starts), exactly the first
succeeds and the remaining N−1 fail with PropertyUnavailable; under
interleaved execution the code provides no such guarantee. -/
theorem c2_serial_one_success (rates : Nat → ℚ) (r : Request) (today n : Nat)
    (h1 : today ≤ r.start_date) (h2 : r.start_date < r.end_date)
    (h3 : (r.status?.getD .pending).isActive = true) :
    (serialCreates rates r today [] (n + 1)).1 =
      .ok () :: List.replicate n (.error .propertyUnavailable) := by
  have havail : Listing.is_available [] r.property r.start_date r.end_date
      = true := rfl
  have hblocked : Listing.is_available
      ([] ++ [newBookingRow rates [] r.property r.user r.start_date
        r.end_date r.status?]) r.property r.start_date r.end_date = false := by
    simp [Listing.is_available, newBookingRow, h3]
    omega
  simp only [serialCreates, createBooking_eq_ok h1 h2 havail,
    serialCreates_blocked n h1 h2 hblocked]

/-- C2 witness for the amended claim, at N = 3 identical requests. -/
theorem c2_serial_one_success_witness :
    (serialCreates (fun _ => 100) ⟨1, 1, 10, 12, none⟩ 10 [] 3).1 =
      .ok () :: List.replicate 2 (.error .propertyUnavailable) :=
  c2_serial_one_success (fun _ => 100) ⟨1, 1, 10, 12, none⟩ 10 2
    (by decide) (by decide) (by decide)

/-- C3 counterexample: with an active booking occupying [5,7), the source's
`is_available` reports the back-to-back range [7,8) as unavailable, although
under the claimed half-open semantics no active booking overlaps it. -/
theorem c3_counterexample_back_to_back :
    Listing.is_available [⟨1, 1, 1, 5, 7, 200, .pending⟩] 1 7 8 = false ∧
    specHalfOpenAvailable [⟨1, 1, 1, 5, 7, 200, .pending⟩] 1 7 8 = true := by
  constructor <;> rfl

/-- C3 amended: `is_available` returns true iff no pending/confirmed booking
of the property satisfies the inclusive comparisons
`b.start_date ≤ range.end ∧ range.start ≤ b.end_date` (closed-interval
overlap); a range that merely shares an endpoint with an active booking is
therefore reported unavailable. -/
theorem c3_is_available_closed_overlap (db : List Booking) (p sd ed : Nat) :
    Listing.is_available db p sd ed = true ↔
      ∀ b ∈ db, b.property = p → b.status.isActive = true →
        ¬(b.start_date ≤ ed ∧ sd ≤ b.end_date) :=
  is_available_eq_true_iff db p sd ed

/-- C4: at a concrete booking ([10,13) pending on property 7), an update
keeping its own dates and an update shrinking them to [10,12) both fail with
PropertyUnavailable — the availability re-check does not exclude the
booking's own id (the source's exclusion attempt reads the nonexistent
`booking_id` field and the serializer-level re-check has no exclusion at
all), so the booking conflicts with itself. -/
theorem c4_update_conflicts_with_itself :
    updateBooking (fun _ => 100) [⟨1, 7, 3, 10, 13, 300, .pending⟩] 1 7 3
      10 13 none 10 = .error .propertyUnavailable ∧
    updateBooking (fun _ => 100) [⟨1, 7, 3, 10, 13, 300, .pending⟩] 1 7 3
      10 12 none 10 = .error .propertyUnavailable := by
  constructor <;> rfl

/-- C5: every booking persisted by the admission flow has
`total_price = nights × nightly rate`, where nights = end − start in days. -/
theorem c5_total_price (rates : Nat → ℚ) (db db' : List Booking)
    (p u sd ed today : Nat) (st? : Option BookingStatus) (b : Booking)
    (h : createBooking rates db p u sd ed st? today = .ok (db', b)) :
    b ∈ db' ∧ b.total_price = ((ed : ℚ) - (sd : ℚ)) * rates p := by
  obtain ⟨rfl, rfl, _, _, _⟩ := createBooking_ok h
  refine ⟨List.mem_append_right _ (List.mem_singleton_self _), ?_⟩
  simp [newBookingRow, Booking.calculate_total_price]

/-- C5 witness: nightly rate 100 over the 3-night range [10,13) yields
total_price 300. -/
theorem c5_total_price_witness :
    createBooking (fun _ => 100) [] 1 1 10 13 none 10 =
      .ok ([⟨1, 1, 1, 10, 13, 300, .pending⟩],
        ⟨1, 1, 1, 10, 13, 300, .pending⟩) ∧
    (⟨1, 1, 1, 10, 13, 300, .pending⟩ : Booking).total_price = 300 := by
  have h : createBooking (fun _ => 100) [] 1 1 10 13 none 10 =
      .ok ([⟨1, 1, 1, 10, 13, 300, .pending⟩],
        ⟨1, 1, 1, 10, 13, 300, .pending⟩) := by
    simp [createBooking, BookingSerializer.validate, Booking.save,
      Booking.clean, Listing.is_available, newBookingRow, freshId,
      Booking.calculate_total_price]
    norm_num
  refine ⟨h, ?_⟩
  have h2 := (c5_total_price (fun _ => 100) [] _ 1 1 10 13 10 none _ h).2
  rw [h2]
  norm_num

/-- C6: a create request with end ≤ start fails with InvalidRange, and a
valid range whose start is before today fails with PastDate; in both cases
the booking store is unchanged. -/
theorem c6_create_rejections (rates : Nat → ℚ) (db : List Booking)
    (p u sd ed today : Nat) (st? : Option BookingStatus) :
    (ed ≤ sd →
      createBooking rates db p u sd ed st? today = .error .invalidRange ∧
      applyOp rates db (.create p u sd ed st? today) = db) ∧
    (sd < ed → sd < today →
      createBooking rates db p u sd ed st? today = .error .pastDate ∧
      applyOp rates db (.create p u sd ed st? today) = db) := by
  constructor
  · intro h
    exact ⟨createBooking_invalidRange h,
      applyOp_create_error (createBooking_invalidRange h)⟩
  · intro h1 h2
    exact ⟨createBooking_pastDate h1 h2,
      applyOp_create_error (createBooking_pastDate h1 h2)⟩

/-- C6 witness: `end = start` ([10,10), today 5) is rejected as InvalidRange
and a past start ([10,12), today 11) as PastDate, both leaving the store
unchanged. -/
theorem c6_create_rejections_witness :
    (createBooking (fun _ => 100) [] 1 1 10 10 none 5 =
        .error .invalidRange ∧
      applyOp (fun _ => 100) [] (.create 1 1 10 10 none 5) = []) ∧
    (createBooking (fun _ => 100) [] 1 1 10 12 none 11 = .error .pastDate ∧
      applyOp (fun _ => 100) [] (.create 1 1 10 12 none 11) = []) :=
  ⟨(c6_create_rejections (fun _ => 100) [] 1 1 10 10 5 none).1 (by decide),
   (c6_create_rejections (fun _ => 100) [] 1 1 10 12 11 none).2 (by decide)
     (by decide)⟩

theorem submitReview_eq_noEligibleStay {bookings : List Booking}
    {reviews : List Review} {u p rating : Nat} {comment : String}
    {today : Nat} (h1 : 1 ≤ rating) (h2 : rating ≤ 5) (h3 : comment ≠ "")
    (he : hasCompletedBooking bookings u p today = false) :
    submitReview bookings reviews u p rating comment today
      = .error .noEligibleStay := by
  have hr : (rating < 1 || 5 < rating) = false := by
    simp
    omega
  simp [submitReview, hr, h3, he]
  omega

theorem submitReview_eq_duplicate {bookings : List Booking}
    {reviews : List Review} {u p rating : Nat} {comment : String}
    {today : Nat} (h1 : 1 ≤ rating) (h2 : rating ≤ 5) (h3 : comment ≠ "")
    (he : hasCompletedBooking bookings u p today = true)
    (hdup : reviews.any (fun x => x.user == u && x.property == p) = true) :
    submitReview bookings reviews u p rating comment today
      = .error .duplicateReview := by
  have hr : (rating < 1 || 5 < rating) = false := by
    simp
    omega
  simp [submitReview, hr, h3, he, hdup]
  omega

theorem submitReview_eq_ok {bookings : List Booking} {reviews : List Review}
    {u p rating : Nat} {comment : String} {today : Nat}
    (h1 : 1 ≤ rating) (h2 : rating ≤ 5) (h3 : comment ≠ "")
    (he : hasCompletedBooking bookings u p today = true)
    (hdup : reviews.any (fun x => x.user == u && x.property == p) = false) :
    submitReview bookings reviews u p rating comment today =
      .ok (reviews ++ [newReviewRow reviews u p rating comment],
        newReviewRow reviews u p rating comment) := by
  have hr : (rating < 1 || 5 < rating) = false := by
    simp
    omega
  simp [submitReview, hr, h3, he, hdup, Review.clean, newReviewRow]
  omega

/-- C7: with a valid rating and non-blank comment, `submit_review` fails
with NoEligibleStay iff the author has no confirmed booking for the property
whose end date is strictly before today; once such a completed stay exists
(and no duplicate review), the same call succeeds. -/
theorem c7_review_eligibility (bookings : List Booking)
    (reviews : List Review) (u p rating : Nat) (comment : String)
    (today : Nat) (h1 : 1 ≤ rating) (h2 : rating ≤ 5) (h3 : comment ≠ "") :
    (submitReview bookings reviews u p rating comment today =
        .error .noEligibleStay ↔
      ¬∃ b ∈ bookings, b.user = u ∧ b.property = p ∧
        b.status = .confirmed ∧ b.end_date < today) ∧
    ((∃ b ∈ bookings, b.user = u ∧ b.property = p ∧ b.status = .confirmed ∧
        b.end_date < today) →
      (∀ x ∈ reviews, ¬(x.user = u ∧ x.property = p)) →
      ∃ res, submitReview bookings reviews u p rating comment today
        = .ok res) := by
  simp only [← hasCompletedBooking_eq_true_iff bookings u p today]
  constructor
  · constructor
    · intro hfail he
      by_cases hdup :
          reviews.any (fun x => x.user == u && x.property == p) = true
      · rw [submitReview_eq_duplicate h1 h2 h3 he hdup] at hfail
        simp at hfail
      · rw [submitReview_eq_ok h1 h2 h3 he (by simpa using hdup)] at hfail
        simp at hfail
    · intro hne
      exact submitReview_eq_noEligibleStay h1 h2 h3 (by simpa using hne)
  · intro he hnodup
    refine ⟨_, submitReview_eq_ok h1 h2 h3 he ?_⟩
    rw [List.any_eq_false]
    intro x hx
    have := hnodup x hx
    simp only [Bool.and_eq_true, beq_iff_eq]
    tauto

/-- C7 witness: with no bookings at all the call fails with NoEligibleStay;
with a confirmed stay over [1,5) and today = 10 the same call succeeds. -/
theorem c7_review_eligibility_witness :
    submitReview [] [] 9 1 5 "great" 10 = .error .noEligibleStay ∧
    (∃ res, submitReview [⟨1, 1, 9, 1, 5, 400, .confirmed⟩] [] 9 1 5
      "great" 10 = .ok res) := by
  constructor
  · exact (c7_review_eligibility [] [] 9 1 5 "great" 10 (by decide)
      (by decide) (by decide)).1.mpr (by simp)
  · exact (c7_review_eligibility [⟨1, 1, 9, 1, 5, 400, .confirmed⟩] [] 9 1 5
      "great" 10 (by decide) (by decide) (by decide)).2
      ⟨⟨1, 1, 9, 1, 5, 400, .confirmed⟩, List.mem_singleton_self _,
        rfl, rfl, rfl, by decide⟩ (by simp)

/-- C8: submitting a review keeps the (author, property) pairs of the review
store pairwise distinct, and after a successful submission a second call for
the same pair (with any valid rating/comment) fails with DuplicateReview and
leaves the review store unchanged. -/
theorem c8_one_review_per_pair (bookings : List Booking)
    (reviews reviews' : List Review) (u p rating : Nat) (comment : String)
    (today : Nat) (r : Review)
    (huniq : reviews.Pairwise (fun a b =>
      ¬(a.user = b.user ∧ a.property = b.property)))
    (h : submitReview bookings reviews u p rating comment today
      = .ok (reviews', r)) :
    reviews'.Pairwise (fun a b =>
      ¬(a.user = b.user ∧ a.property = b.property)) ∧
    (∀ rating' comment', 1 ≤ rating' → rating' ≤ 5 → comment' ≠ "" →
      submitReview bookings reviews' u p rating' comment' today
        = .error .duplicateReview ∧
      submitReviewState bookings reviews' u p rating' comment' today
        = reviews') := by
  obtain ⟨rfl, hr, he, hdup⟩ := submitReview_ok h
  have hrow_u : r.user = u := by rw [hr]; rfl
  have hrow_p : r.property = p := by rw [hr]; rfl
  constructor
  · rw [List.pairwise_append]
    refine ⟨huniq, List.pairwise_singleton _ _, ?_⟩
    intro a ha c hc
    rw [List.mem_singleton] at hc
    subst c
    rw [List.any_eq_false] at hdup
    have := hdup a ha
    simp only [Bool.and_eq_true, beq_iff_eq] at this
    rw [hrow_u, hrow_p]
    tauto
  · intro rating' comment' k1 k2 k3
    have hdup' : (reviews ++ [r]).any
        (fun x => x.user == u && x.property == p) = true := by
      simp [List.any_append, hrow_u, hrow_p]
    have heq := submitReview_eq_duplicate k1 k2 k3 he hdup'
    exact ⟨heq, by simp [submitReviewState, heq]⟩

/-- C8 witness: after the review store holds the review by user 9 on
property 1, a second submission by the same pair fails with DuplicateReview
and the store is unchanged. -/
theorem c8_one_review_per_pair_witness :
    submitReview [⟨1, 1, 9, 1, 5, 400, .confirmed⟩] [⟨1, 1, 9, 5, "good"⟩]
      9 1 4 "bad" 10 = .error .duplicateReview ∧
    submitReviewState [⟨1, 1, 9, 1, 5, 400, .confirmed⟩]
      [⟨1, 1, 9, 5, "good"⟩] 9 1 4 "bad" 10 = [⟨1, 1, 9, 5, "good"⟩] := by
  have h0 : submitReview [⟨1, 1, 9, 1, 5, 400, .confirmed⟩] [] 9 1 5
      "good" 10 = .ok ([⟨1, 1, 9, 5, "good"⟩], ⟨1, 1, 9, 5, "good"⟩) := by
    rw [submitReview_eq_ok (by decide) (by decide) (by decide) (by decide)
      (by decide)]
    rfl
  have h := (c8_one_review_per_pair [⟨1, 1, 9, 1, 5, 400, .confirmed⟩] []
    [⟨1, 1, 9, 5, "good"⟩] 9 1 5 "good" 10 ⟨1, 1, 9, 5, "good"⟩
    List.Pairwise.nil h0).2 4 "bad" (by decide) (by decide) (by decide)
  simpa using h

theorem get_average_rating_eq (reviews : List Review) (p : Nat) :
    Listing.get_average_rating reviews p =
      if (reviews.filter fun r => r.property == p).isEmpty then none
      else some ((((reviews.filter fun r => r.property == p).map
        fun r => (r.rating : ℚ)).sum) /
        ((reviews.filter fun r => r.property == p).length : ℚ)) := rfl

/-- C9: `average_rating` returns None for a property with no reviews, and
otherwise the arithmetic mean of all of that property's review ratings. -/
theorem c9_average_rating (reviews : List Review) (p : Nat) :
    (Listing.get_average_rating reviews p = none ↔
      ∀ r ∈ reviews, r.property ≠ p) ∧
    ((reviews.filter fun r => r.property == p) ≠ [] →
      Listing.get_average_rating reviews p =
        some ((((reviews.filter fun r => r.property == p).map
          fun r => (r.rating : ℚ)).sum) /
          ((reviews.filter fun r => r.property == p).length : ℚ))) := by
  rw [get_average_rating_eq]
  by_cases hemp : (reviews.filter fun r => r.property == p) = []
  · rw [if_pos (by simpa using hemp)]
    constructor
    · constructor
      · intro _ r hr
        have := List.filter_eq_nil_iff.mp hemp r hr
        simpa using this
      · intro _
        rfl
    · intro hne
      exact absurd hemp hne
  · rw [if_neg (by simpa using hemp)]
    constructor
    · constructor
      · intro hnone
        cases hnone
      · intro h
        exfalso
        obtain ⟨r, hr⟩ := List.exists_mem_of_ne_nil _ hemp
        have hr' := List.mem_filter.mp hr
        exact h r hr'.1 (by simpa using hr'.2)
    · intro _
      rfl

/-- C9 witness: zero reviews give None, and ratings [3,5] average to 4. -/
theorem c9_average_rating_witness :
    Listing.get_average_rating [] 1 = none ∧
    Listing.get_average_rating [⟨1, 1, 2, 3, "a"⟩, ⟨2, 1, 3, 5, "b"⟩] 1
      = some 4 := by
  constructor
  · exact (c9_average_rating [] 1).1.mpr (by simp)
  · have h := (c9_average_rating [⟨1, 1, 2, 3, "a"⟩, ⟨2, 1, 3, 5, "b"⟩] 1).2
      (by decide)
    rw [h]
    norm_num

/-- C10: a successful update through the public update path leaves the
booking's property, requester and id unchanged (whatever property/user
values came with the request), changes exactly the dates, the status and the
recomputed total price, and rewrites only that row of the store. -/
theorem c10_update_preserves_identity (rates : Nat → ℚ)
    (db db' : List Booking) (instId sp su sd ed today : Nat)
    (st? : Option BookingStatus) (b' inst : Booking)
    (hfind : db.find? (fun x => x.id == instId) = some inst)
    (h : updateBooking rates db instId sp su sd ed st? today
      = .ok (db', b')) :
    b'.property = inst.property ∧ b'.user = inst.user ∧ b'.id = inst.id ∧
    b'.start_date = sd ∧ b'.end_date = ed ∧
    b'.status = st?.getD inst.status ∧
    b'.total_price = Booking.calculate_total_price (rates inst.property)
      sd ed ∧
    db' = db.map (fun x => if x.id == b'.id then b' else x) := by
  obtain ⟨inst2, hfind2, hb', hdb', _⟩ := updateBooking_ok h
  rw [hfind] at hfind2
  cases hfind2
  subst hb'
  exact ⟨rfl, rfl, rfl, rfl, rfl, rfl, rfl, hdb'⟩

/-- C10 witness: updating booking 1 (property 7, user 3) while supplying
property 9 and user 4 succeeds with property and user unchanged. -/
theorem c10_update_preserves_identity_witness :
    updateBooking (fun _ => 100) [⟨1, 7, 3, 20, 22, 200, .canceled⟩] 1 9 4
      30 32 (some .pending) 10
      = .ok ([⟨1, 7, 3, 30, 32, 200, .pending⟩],
        ⟨1, 7, 3, 30, 32, 200, .pending⟩) ∧
    (⟨1, 7, 3, 30, 32, 200, .pending⟩ : Booking).property = 7 ∧
    (⟨1, 7, 3, 30, 32, 200, .pending⟩ : Booking).user = 3 := by
  have h : updateBooking (fun _ => 100) [⟨1, 7, 3, 20, 22, 200, .canceled⟩]
      1 9 4 30 32 (some .pending) 10
      = .ok ([⟨1, 7, 3, 30, 32, 200, .pending⟩],
        ⟨1, 7, 3, 30, 32, 200, .pending⟩) := by
    simp [updateBooking, BookingSerializer.validate, Booking.save,
      Booking.clean, Listing.is_available, updatedBookingRow,
      Booking.calculate_total_price]
    norm_num
  have h2 := c10_update_preserves_identity (fun _ => 100)
    [⟨1, 7, 3, 20, 22, 200, .canceled⟩] _ 1 9 4 30 32 10 (some .pending) _
    ⟨1, 7, 3, 20, 22, 200, .canceled⟩ rfl h
  exact ⟨h, h2.1, h2.2.1⟩
